import Mathlib

/-!
Shallow embedding of the `daily_journal` repository (src/daily_journal/model.py,
controller.py, repository.py) and proofs about its specification claims.

Conventions:
* `datetime.date` is embedded as a `Date` structure of naturals; Python's
  `date.isoformat()` (`YYYY-MM-DD`, zero padded) is `Date.isoformat`.
* The SQLite `entries` table is embedded as a list of rows in rowid order
  (fresh inserts append; `ON CONFLICT ... DO UPDATE` updates in place, which is
  also what SQLite does to the row).  SQLite TEXT comparison (memcmp of UTF-8
  bytes, which on these ASCII date strings is exactly lexicographic character
  order) is `sqlLe`/`sqlLt`.
* Statement execution returns `Except SqlError Store`; the `cursor_manager`
  context manager commits on success, and on error rolls back (the returned
  store is the original one), swallowing `sqlite3.IntegrityError` (log only)
  and re-raising anything else, exactly as in repository.py lines 53-68.
* Environmental storage failures (disk errors, lost connections, ...) that
  `cursor.execute` may raise are modelled by an `Option SqlError` fault
  parameter: `some e` makes the execute raise `e` before doing anything,
  `none` runs the statement's own semantics.
-/

namespace DailyJournal

/-! ### Dates (`datetime.date`, proleptic Gregorian calendar) -/

/-- A calendar date, as in Python's `datetime.date` (year, month, day). -/
structure Date where
  year : Nat
  month : Nat
  day : Nat
deriving DecidableEq, Repr

/-- Gregorian leap-year rule, as in `calendar.isleap`. -/
def isLeap (y : Nat) : Bool := y % 4 == 0 && (y % 100 != 0 || y % 400 == 0)

/-- Number of days in a month (`calendar.monthrange(y, m)[1]`). -/
def daysInMonth (y m : Nat) : Nat :=
  if m = 2 then (if isLeap y then 29 else 28)
  else if m = 4 ∨ m = 6 ∨ m = 9 ∨ m = 11 then 30
  else 31

/-- Validity of a date, mirroring the checks `datetime.date` performs
(`MINYEAR = 1`, `MAXYEAR = 9999`). -/
def Date.Valid (d : Date) : Prop :=
  1 ≤ d.year ∧ d.year ≤ 9999 ∧ 1 ≤ d.month ∧ d.month ≤ 12 ∧
    1 ≤ d.day ∧ d.day ≤ daysInMonth d.year d.month

instance : DecidablePred Date.Valid := fun d =>
  inferInstanceAs (Decidable (1 ≤ d.year ∧ d.year ≤ 9999 ∧ 1 ≤ d.month ∧ d.month ≤ 12 ∧
    1 ≤ d.day ∧ d.day ≤ daysInMonth d.year d.month))

/-- Componentwise bounds under which the 4-2-2 digit ISO rendering is faithful;
every `Date.Valid` date satisfies them. -/
def Date.Bounded (d : Date) : Prop := d.year < 10000 ∧ d.month < 100 ∧ d.day < 100

instance : DecidablePred Date.Bounded := fun d =>
  inferInstanceAs (Decidable (d.year < 10000 ∧ d.month < 100 ∧ d.day < 100))

/-- Chronological strict order on dates (what `datetime.date.__lt__` computes). -/
def Date.lt (a b : Date) : Prop :=
  a.year < b.year ∨ (a.year = b.year ∧
    (a.month < b.month ∨ (a.month = b.month ∧ a.day < b.day)))

instance (a b : Date) : Decidable (Date.lt a b) :=
  inferInstanceAs (Decidable (a.year < b.year ∨ (a.year = b.year ∧
    (a.month < b.month ∨ (a.month = b.month ∧ a.day < b.day)))))

/-- Chronological order on dates, reflexive version. -/
def Date.le (a b : Date) : Prop :=
  Date.lt a b ∨ (a.year = b.year ∧ a.month = b.month ∧ a.day = b.day)

instance (a b : Date) : Decidable (Date.le a b) :=
  inferInstanceAs (Decidable (Date.lt a b ∨ (a.year = b.year ∧ a.month = b.month ∧ a.day = b.day)))

/-- Two decimal digits, zero padded (`f"{n:02d}"` for `n < 100`). -/
def pad2 (n : Nat) : List Char := [Nat.digitChar (n / 10), Nat.digitChar (n % 10)]

/-- Four decimal digits, zero padded (`f"{n:04d}"` for `n < 10000`). -/
def pad4 (n : Nat) : List Char := pad2 (n / 100) ++ pad2 (n % 100)

/-- Python's `date.isoformat()`: the canonical `YYYY-MM-DD` string. -/
def Date.isoformat (d : Date) : String :=
  ⟨pad4 d.year ++ '-' :: (pad2 d.month ++ '-' :: pad2 d.day)⟩

/-! ### Calendar matrix (`calendar.monthcalendar`, weeks starting Monday) -/

/-- Days in all months strictly before month `m` of year `y`. -/
def daysBeforeMonth (y m : Nat) : Nat :=
  ((List.range (m - 1)).map (fun k => daysInMonth y (k + 1))).sum

/-- Python's `date.toordinal()`: day count with 0001-01-01 as day 1. -/
def toordinal (y m d : Nat) : Nat :=
  365 * (y - 1) + (y - 1) / 4 - (y - 1) / 100 + (y - 1) / 400 + daysBeforeMonth y m + d

/-- Python's `date.weekday()`: Monday = 0 ... Sunday = 6. -/
def weekday (y m d : Nat) : Nat := (toordinal y m d + 6) % 7

/-- Embedding of `calendar.monthcalendar(y, m)` with the default Monday week
start: the month's natural grid of full weeks, cell = day-of-month or 0 for
cells outside the month.  Row `i`, column `j` holds overall cell `i*7+j`; the
first `weekday y m 1` cells and the cells past the last day are 0.  The number
of rows is the number of weeks needed, `⌈(first + n) / 7⌉`. -/
def monthcalendar (y m : Nat) : List (List Nat) :=
  let first := weekday y m 1
  let n := daysInMonth y m
  let rows := (first + n + 6) / 7
  (List.range rows).map (fun i =>
    (List.range 7).map (fun j =>
      let c := i * 7 + j
      if c < first ∨ first + n ≤ c then 0 else c - first + 1))

/-! ### model.py : `Day` and `Month` -/

/-- English month names, `calendar.month_name[1..12]` (index 0 is empty). -/
def month_name (m : Nat) : String :=
  if m = 1 then "January" else if m = 2 then "February" else if m = 3 then "March"
  else if m = 4 then "April" else if m = 5 then "May" else if m = 6 then "June"
  else if m = 7 then "July" else if m = 8 then "August" else if m = 9 then "September"
  else if m = 10 then "October" else if m = 11 then "November"
  else if m = 12 then "December" else ""

/-- In-memory `Day` object: a date plus the (mutable, initially empty) entry
text.  The derived `date_string` attribute is the function `Day.get_date_string`
applied to the date. -/
structure Day where
  date : Date
  entry : String
deriving DecidableEq, Repr

/-- Constructor of `Day` (model.py lines 7-10): entry text starts empty. -/
def Day.init (date : Date) : Day := ⟨date, ""⟩

/-- model.py line 13: `datetime.datetime.strftime(self.date, '%B %d, %Y')`.
`%B` is the full month name, `%d` the ZERO-PADDED two-digit day of month, `%Y`
the year (unpadded for four-digit years, which is all `repr` is used for here). -/
def Day.get_date_string (d : Date) : String :=
  month_name d.month ++ " " ++ ⟨pad2 d.day⟩ ++ ", " ++ Nat.repr d.year

/-- model.py lines 24-33, `Month.build_calendar_matrix`: take
`calendar.monthcalendar`, append ONE all-zero week if there are fewer than 6,
then replace every non-zero day number with a `Day` object for that date
(`none` stands for the int cell 0, `some day` for a `Day` cell). -/
def Month.build_calendar_matrix (month_num year : Nat) : List (List (Option Day)) :=
  let month_matrix := monthcalendar year month_num
  let month_matrix :=
    if month_matrix.length < 6 then month_matrix ++ [[0, 0, 0, 0, 0, 0, 0]] else month_matrix
  month_matrix.map (fun week => week.map (fun day_num =>
    if day_num ≠ 0 then some (Day.init ⟨year, month_num, day_num⟩) else none))

/-! ### controller.py : `Controller` -/

namespace Controller

/-- controller.py lines 60-65: the focus month's matrix from
`calendar.monthcalendar`, with ONE all-zero week appended when there are fewer
than 6 rows. -/
def build_calendar_matrix (y m : Nat) : List (List Nat) :=
  if (monthcalendar y m).length < 6 then monthcalendar y m ++ [[0, 0, 0, 0, 0, 0, 0]]
  else monthcalendar y m

/-- controller.py lines 54-58: f-string `f'{month_str} {day}, {year}'` built
from `calendar.month_name` and the plain (unpadded) `int` reprs. -/
def get_focus_date_str (d : Date) : String :=
  month_name d.month ++ " " ++ Nat.repr d.day ++ ", " ++ Nat.repr d.year

/-- Mutable controller state touched by `set_focus_date_and_month`. -/
structure State where
  _focus_date : Date
  calendar_matrix : List (List Nat)
deriving DecidableEq, Repr

/-- controller.py lines 45-48:
`def set_focus_date_and_month(self, date: datetime.date = datetime.date.today())`.
Python evaluates the default argument ONCE, when the class body is executed, so
the default is a fixed date captured at process start: `startDefault` here.  A
call without an argument is `arg = none`; it uses that captured date, not the
current date at call time (call time is not even an input of this function).
The body stores the date and rebuilds the calendar matrix for its month. -/
def set_focus_date_and_month (startDefault : Date) (arg : Option Date) (_s : State) : State :=
  let date := arg.getD startDefault
  { _focus_date := date
    calendar_matrix := build_calendar_matrix date.year date.month }

end Controller

/-! ### repository.py : the `entries` table and the `Entries` repository -/

/-- One row of the `entries` table (the surrogate `id` column is never read by
any query; a row's identity in the list is its position, i.e. its rowid). -/
structure Row where
  date : String
  entry : String
deriving DecidableEq, Repr

/-- The `entries` table in rowid order. -/
abbrev Store := List Row

/-- Well-formed table state: the `UNIQUE` constraint / unique index on `date`
holds, i.e. no two rows share a date. -/
def WF (s : Store) : Prop := (s.map Row.date).Nodup

instance : DecidablePred WF := fun s => inferInstanceAs (Decidable (s.map Row.date).Nodup)

/-- SQLite TEXT comparison (strict): byte/character lexicographic order. -/
def sqlLt (a b : String) : Prop := a.data < b.data

/-- SQLite TEXT comparison (reflexive): byte/character lexicographic order. -/
def sqlLe (a b : String) : Prop := a.data ≤ b.data

instance (a b : String) : Decidable (sqlLt a b) :=
  inferInstanceAs (Decidable (a.data < b.data))

instance (a b : String) : Decidable (sqlLe a b) :=
  inferInstanceAs (Decidable (a.data ≤ b.data))

/-- Error classes distinguished by the repository's exception handlers:
`sqlite3.IntegrityError` (constraint violations) versus every other
`sqlite3`/storage error (syntax errors, disk errors, lost connections, ...). -/
inductive SqlError where
  | integrityError
  | operationalError
deriving DecidableEq, Repr

/-- What a mutating repository call looks like to its caller: normal return,
or a raised exception. -/
inductive OpResult where
  | ok
  | raised (e : SqlError)
deriving DecidableEq, Repr

/-- Whether some row has the given date (what the `UNIQUE` constraint probe
checks on an insert). -/
def hasDate (s : Store) (k : String) : Bool := s.any (fun r => r.date == k)

/-- Execution of repository.py lines 76-80, the save statement
`INSERT INTO entries (date, entry) VALUES (?, ?) ON CONFLICT(date) DO UPDATE
SET entry = EXCLUDED.entry`: a duplicate date is not an error — the declared
conflict target resolves it by updating that row's entry in place.  A fresh
date appends a new row.  Neither branch can raise `IntegrityError`. -/
def execUpsert (s : Store) (k e : String) : Except SqlError Store :=
  if hasDate s k then
    .ok (s.map (fun r => if r.date == k then { r with entry := e } else r))
  else
    .ok (s ++ [⟨k, e⟩])

/-- Net effect of the save statement on the table: `execUpsert` always
succeeds and returns exactly this store. -/
def upsert (s : Store) (k e : String) : Store :=
  if hasDate s k then
    s.map (fun r => if r.date == k then { r with entry := e } else r)
  else
    s ++ [⟨k, e⟩]

/-- Execution of a plain `INSERT INTO entries (date, entry) VALUES (?, ?)`
(no conflict clause), for contrast with `execUpsert`: the `UNIQUE` constraint
on `date` makes a duplicate date raise `IntegrityError`. -/
def execRawInsert (s : Store) (k e : String) : Except SqlError Store :=
  if hasDate s k then .error .integrityError else .ok (s ++ [⟨k, e⟩])

/-- Execution of repository.py lines 87-91, `SELECT date, entry FROM entries
WHERE date BETWEEN ? and ?` — `x BETWEEN a AND b` is `a <= x AND x <= b` on the
stored TEXT values.  The query has NO `ORDER BY`, so the rows come back in the
order the scan visits them, modelled as the rowid (insertion) order of the
table; SQLite promises no particular order for such a query. -/
def execSelectBetween (s : Store) (a b : String) : List (String × String) :=
  (s.filter (fun r => decide (sqlLe a r.date ∧ sqlLe r.date b))).map
    (fun r => (r.date, r.entry))

/-- Execution of repository.py lines 101-104: the delete statement is
`DELETE FROM entries WHERE = ?` — the WHERE clause is missing its column name,
so SQLite cannot even prepare the statement: every call raises an
`OperationalError` (`near "=": syntax error`) and no row is ever touched,
whatever the store contains. -/
def execDeleteMalformed (_s : Store) : Except SqlError Store :=
  .error .operationalError

/-- repository.py lines 53-68, `Entries.cursor_manager`: run the body with a
cursor; on success commit the new state; on `sqlite3.IntegrityError` roll back
and only log (the exception is swallowed — there is no `raise` in that branch,
so the caller sees a normal return); on any other exception roll back, log and
re-raise. -/
def cursor_manager (act : Store → Except SqlError Store) (s : Store) : OpResult × Store :=
  match act s with
  | .ok s' => (.ok, s')
  | .error .integrityError => (.ok, s)
  | .error e => (.raised e, s)

/-- Environmental fault injection at `cursor.execute`: `some e` makes the
execute raise `e` (disk error, lost connection, ...) before any change is
applied; `none` runs the statement normally. -/
def withFault (fault : Option SqlError) (act : Store → Except SqlError Store) :
    Store → Except SqlError Store :=
  fun s => match fault with
  | some e => .error e
  | none => act s

namespace Entries

/-- repository.py lines 70-72, `Entries.format_date`: ISO-format every date. -/
def format_date (dates : List Date) : List String := dates.map Date.isoformat

/-- repository.py lines 74-84, `Entries.save(day)`: upsert the day's
(ISO-formatted date, entry) inside `cursor_manager`. -/
def save (fault : Option SqlError) (s : Store) (day : Day) : OpResult × Store :=
  let formatted_date := (format_date [day.date]).getD 0 ""
  cursor_manager (withFault fault (fun s => execUpsert s formatted_date day.entry)) s

/-- repository.py lines 86-98, `Entries.get_by_dates(start_date, end_date)`:
the BETWEEN select on the ISO-formatted bounds, inside `cursor_manager`.  The
statement itself cannot fail, so on a fault-free run the rows (and only the
rows) come back. -/
def get_by_dates (s : Store) (start_date end_date : Date) : List (String × String) :=
  match format_date [start_date, end_date] with
  | [f_start_date, f_end_date] => execSelectBetween s f_start_date f_end_date
  | _ => []

/-- repository.py lines 100-109, `Entries.delete(day)`: the malformed DELETE
inside `cursor_manager` (the date is formatted, but the statement never
prepares, so it is unused). -/
def delete (fault : Option SqlError) (s : Store) (day : Day) : OpResult × Store :=
  let _formatted_date := (format_date [day.date]).getD 0 ""
  cursor_manager (withFault fault execDeleteMalformed) s

end Entries

/-- repository.py lines 12-39, `init_entries_table`: `CREATE TABLE IF NOT
EXISTS` + `CREATE UNIQUE INDEX IF NOT EXISTS`, committed, with its own handler:
`IntegrityError` → rollback + log (swallowed), any other error → rollback +
log + re-raise.  The schema state is whether table and index exist; the DDL is
idempotent, so a fault-free run always leaves them existing. -/
def init_entries_table (fault : Option SqlError) (schema : Bool) : OpResult × Bool :=
  match fault with
  | some .integrityError => (.ok, schema)
  | some e => (.raised e, schema)
  | none => (.ok, true)

/-! ### Lexicographic order machinery: ISO date strings order like dates -/

theorem lex_cons_cons {a b : Char} {l m : List Char} :
    List.Lex (· < ·) (a :: l) (b :: m) ↔ a < b ∨ (a = b ∧ List.Lex (· < ·) l m) := by
  constructor
  · intro h
    cases h with
    | rel h => exact Or.inl h
    | cons h => exact Or.inr ⟨rfl, h⟩
  · rintro (h | ⟨rfl, h⟩)
    · exact List.Lex.rel h
    · exact List.Lex.cons h

theorem digitChar_lt_iff : ∀ x, x < 10 → ∀ y, y < 10 →
    (Nat.digitChar x < Nat.digitChar y ↔ x < y) := by decide

theorem digitChar_eq_iff : ∀ x, x < 10 → ∀ y, y < 10 →
    (Nat.digitChar x = Nat.digitChar y ↔ x = y) := by decide

theorem lex_pad2_append {a b : Nat} (ha : a < 100) (hb : b < 100) (l m : List Char) :
    List.Lex (· < ·) (pad2 a ++ l) (pad2 b ++ m) ↔
      a < b ∨ (a = b ∧ List.Lex (· < ·) l m) := by
  have h1 : a / 10 < 10 := by omega
  have h2 : b / 10 < 10 := by omega
  have h3 : a % 10 < 10 := by omega
  have h4 : b % 10 < 10 := by omega
  simp only [pad2, List.cons_append, List.nil_append]
  rw [lex_cons_cons, lex_cons_cons,
    digitChar_lt_iff _ h1 _ h2, digitChar_eq_iff _ h1 _ h2,
    digitChar_lt_iff _ h3 _ h4, digitChar_eq_iff _ h3 _ h4]
  constructor
  · rintro (h | ⟨hq, h | ⟨hr, hlex⟩⟩)
    · exact Or.inl (by omega)
    · exact Or.inl (by omega)
    · exact Or.inr ⟨by omega, hlex⟩
  · rintro (h | ⟨rfl, hlex⟩)
    · by_cases hq : a / 10 < b / 10
      · exact Or.inl hq
      · exact Or.inr ⟨by omega, Or.inl (by omega)⟩
    · exact Or.inr ⟨rfl, Or.inr ⟨rfl, hlex⟩⟩

theorem iso_lt_iff {a b : Date} (ha : a.Bounded) (hb : b.Bounded) :
    sqlLt a.isoformat b.isoformat ↔ Date.lt a b := by
  obtain ⟨hy, hm, hd⟩ := ha
  obtain ⟨hy', hm', hd'⟩ := hb
  show List.Lex (· < ·) _ _ ↔ _
  simp only [Date.isoformat, pad4, List.append_assoc]
  rw [lex_pad2_append (by omega) (by omega),
    lex_pad2_append (by omega) (by omega),
    List.Lex.cons_iff,
    lex_pad2_append hm hm',
    List.Lex.cons_iff,
    show pad2 a.day = pad2 a.day ++ [] by simp,
    show pad2 b.day = pad2 b.day ++ [] by simp,
    lex_pad2_append hd hd']
  have hnil : ¬ List.Lex (· < ·) ([] : List Char) [] := by intro h; cases h
  simp only [iff_false_intro hnil, and_false, or_false]
  unfold Date.lt
  omega

theorem iso_le_iff {a b : Date} (ha : a.Bounded) (hb : b.Bounded) :
    sqlLe a.isoformat b.isoformat ↔ Date.le a b := by
  have h1 : sqlLt b.isoformat a.isoformat ↔ Date.lt b a := iso_lt_iff hb ha
  have h2 : sqlLe a.isoformat b.isoformat ↔ ¬ sqlLt b.isoformat a.isoformat := by
    unfold sqlLe sqlLt
    exact not_lt.symm
  rw [h2, h1]
  unfold Date.le
  unfold Date.lt
  omega

theorem sqlLe_refl (a : String) : sqlLe a a := le_refl a.data

theorem sqlLe_antisymm {a b : String} (h1 : sqlLe a b) (h2 : sqlLe b a) : a = b :=
  String.toList_inj.mp (le_antisymm h1 h2)

theorem sqlLe_trans {a b c : String} (h1 : sqlLe a b) (h2 : sqlLe b c) : sqlLe a c :=
  le_trans h1 h2

theorem sqlLt_asymm_le {a b : String} (h : sqlLt b a) : ¬ sqlLe a b := by
  unfold sqlLt sqlLe at *
  exact not_le_of_lt h

/-! ### Basic facts about the embedded table operations -/

theorem hasDate_iff {s : Store} {k : String} :
    hasDate s k = true ↔ k ∈ s.map Row.date := by
  unfold hasDate
  simp [List.any_eq_true, List.mem_map]

theorem execUpsert_eq (s : Store) (k e : String) :
    execUpsert s k e = .ok (upsert s k e) := by
  unfold execUpsert upsert
  split <;> rfl

theorem save_none_eq (s : Store) (day : Day) :
    Entries.save none s day = (.ok, upsert s day.date.isoformat day.entry) := by
  simp only [Entries.save, cursor_manager, withFault, Entries.format_date,
    List.map_cons, List.map_nil, List.getD_cons_zero, execUpsert_eq]

theorem upsert_map_date (s : Store) (k e : String) :
    (upsert s k e).map Row.date =
      if hasDate s k then s.map Row.date else s.map Row.date ++ [k] := by
  unfold upsert
  split
  · rw [List.map_map]
    apply List.map_congr_left
    intro r _
    by_cases h : r.date = k <;> simp [h, Function.comp]
  · simp

theorem WF_upsert {s : Store} (hwf : WF s) (k e : String) : WF (upsert s k e) := by
  unfold WF at *
  rw [upsert_map_date]
  split
  · exact hwf
  · next h =>
    rw [List.nodup_append]
    refine ⟨hwf, List.nodup_singleton k, ?_⟩
    intro x hx hk
    simp at hk
    subst hk
    exact h (hasDate_iff.mpr hx)

theorem filter_dateEq_nil {s : Store} {k : String} (h : k ∉ s.map Row.date) :
    s.filter (fun r => r.date == k) = [] := by
  rw [List.filter_eq_nil_iff]
  intro r hr
  simp only [beq_iff_eq]
  intro he
  exact h (List.mem_map.mpr ⟨r, hr, he⟩)

theorem filter_dateEq_update {s : Store} {k : String} (e : String)
    (hmem : k ∈ s.map Row.date) (hwf : WF s) :
    (s.map (fun r => if r.date == k then { r with entry := e } else r)).filter
        (fun r => r.date == k) = [⟨k, e⟩] := by
  induction s with
  | nil => simp at hmem
  | cons r s ih =>
    have hwf' : r.date ∉ s.map Row.date ∧ WF s := by
      unfold WF at hwf
      simpa [List.nodup_cons] using hwf
    by_cases h : r.date = k
    · subst h
      have htail : (s.map (fun x => if x.date == r.date then { x with entry := e } else x)).filter
          (fun x => x.date == r.date) = [] := by
        rw [List.filter_eq_nil_iff]
        intro x hx
        obtain ⟨x₀, hx₀, rfl⟩ := List.mem_map.mp hx
        have hne : x₀.date ≠ r.date := fun hc => hwf'.1 (List.mem_map.mpr ⟨x₀, hx₀, hc⟩)
        simp [hne]
      have hhead : (if r.date == r.date then ({ r with entry := e } : Row) else r)
          = { r with entry := e } := by simp
      rw [List.map_cons, hhead, List.filter_cons_of_pos (by simp), htail]
    · have hmem' : k ∈ s.map Row.date := by
        rcases List.mem_map.mp hmem with ⟨x, hx, hxd⟩
        rcases List.mem_cons.mp hx with rfl | hx'
        · exact absurd hxd h
        · exact List.mem_map.mpr ⟨x, hx', hxd⟩
      have hhead : (if r.date == k then ({ r with entry := e } : Row) else r) = r := by
        simp [h]
      rw [List.map_cons, hhead, List.filter_cons_of_neg (by simp [h]), ih hmem' hwf'.2]

theorem filter_upsert {s : Store} (hwf : WF s) (k e : String) :
    (upsert s k e).filter (fun r => r.date == k) = [⟨k, e⟩] := by
  unfold upsert
  split
  · next h => exact filter_dateEq_update e (hasDate_iff.mp h) hwf
  · next h =>
    rw [List.filter_append,
      filter_dateEq_nil (fun hc => h (hasDate_iff.mpr hc))]
    simp

theorem between_self_eq_filter (s : Store) (k : String) :
    execSelectBetween s k k =
      (s.filter (fun r => r.date == k)).map (fun r => (r.date, r.entry)) := by
  unfold execSelectBetween
  congr 1
  apply List.filter_congr
  intro r _
  by_cases h : r.date = k
  · simp [h, sqlLe_refl]
  · have hne : ¬ (sqlLe k r.date ∧ sqlLe r.date k) := fun hc => h (sqlLe_antisymm hc.2 hc.1)
    rw [decide_eq_false hne]
    exact (by simp [h] : (r.date == k) = false).symm

theorem get_by_dates_eq (s : Store) (a b : Date) :
    Entries.get_by_dates s a b = execSelectBetween s a.isoformat b.isoformat := rfl

theorem save_none_snd (s : Store) (day : Day) :
    (Entries.save none s day).2 = upsert s day.date.isoformat day.entry := by
  rw [save_none_eq]

theorem save_mk_snd (s : Store) (d : Date) (t : String) :
    (Entries.save none s ⟨d, t⟩).2 = upsert s d.isoformat t := save_none_snd s ⟨d, t⟩

/-! ### Calendar matrix shape facts -/

theorem monthcalendar_length (y m : Nat) :
    (monthcalendar y m).length = (weekday y m 1 + daysInMonth y m + 6) / 7 := by
  unfold monthcalendar
  simp

theorem monthcalendar_row_length (y m : Nat) :
    ∀ w ∈ monthcalendar y m, w.length = 7 := by
  unfold monthcalendar
  intro w hw
  simp only [List.mem_map, List.mem_range] at hw
  obtain ⟨i, _, rfl⟩ := hw
  simp

theorem daysInMonth_bounds (y m : Nat) : 28 ≤ daysInMonth y m ∧ daysInMonth y m ≤ 31 := by
  unfold daysInMonth
  split
  · split <;> omega
  · split <;> omega

theorem weekday_lt (y m d : Nat) : weekday y m d < 7 := Nat.mod_lt _ (by omega)

theorem monthcalendar_length_bounds (y m : Nat) :
    4 ≤ (monthcalendar y m).length ∧ (monthcalendar y m).length ≤ 6 := by
  rw [monthcalendar_length]
  have h1 := daysInMonth_bounds y m
  have h2 := weekday_lt y m 1
  omega

theorem build_calendar_matrix_length (y m : Nat) :
    (Controller.build_calendar_matrix y m).length =
      if (monthcalendar y m).length < 6 then (monthcalendar y m).length + 1
      else (monthcalendar y m).length := by
  unfold Controller.build_calendar_matrix
  rw [apply_ite List.length]
  simp

theorem month_matrix_map (month_num year : Nat) :
    Month.build_calendar_matrix month_num year =
      (Controller.build_calendar_matrix year month_num).map
        (fun week => week.map (fun day_num =>
          if day_num ≠ 0 then some (Day.init ⟨year, month_num, day_num⟩) else none)) := rfl

theorem pad2_eq_repr_iff : ∀ n, n < 32 → ((pad2 n = (Nat.repr n).data) ↔ 10 ≤ n) := by decide

/-! ### Claim C1 -/

/-- C1, counterexample to the claim as stated: for February 2021 — a month
whose natural `monthcalendar` grid has only 4 rows (Feb 1, 2021 is a Monday and
2021 is no leap year) — both builders return a 5-row grid, not 6: the code
appends only ONE synthetic zero row. -/
theorem calendar_matrix_four_row_month :
    (Controller.build_calendar_matrix 2021 2).length = 5 ∧
    (Month.build_calendar_matrix 2 2021).length = 5 ∧
    (Controller.build_calendar_matrix 2021 2).length ≠ 6 := by decide

/-- C1, amended: for every year and month 1..12, every row of the calendar
matrix has exactly 7 cells; one all-zero row is appended exactly when the
natural grid has fewer than 6 rows, which yields 6 rows whenever the natural
grid has 5 or 6 rows but only 5 rows for a month whose natural grid has 4 rows;
the `Month` builder has the same number of rows as the `Controller` one. -/
theorem calendar_matrix_shape (y m : Nat) (hm1 : 1 ≤ m) (hm2 : m ≤ 12) :
    (∀ w ∈ Controller.build_calendar_matrix y m, w.length = 7) ∧
    (5 ≤ (monthcalendar y m).length → (Controller.build_calendar_matrix y m).length = 6) ∧
    ((monthcalendar y m).length = 4 → (Controller.build_calendar_matrix y m).length = 5) ∧
    (Month.build_calendar_matrix m y).length = (Controller.build_calendar_matrix y m).length := by
  have hb := monthcalendar_length_bounds y m
  refine ⟨?_, ?_, ?_, ?_⟩
  · intro w hw
    unfold Controller.build_calendar_matrix at hw
    split at hw
    · rcases List.mem_append.mp hw with h | h
      · exact monthcalendar_row_length y m w h
      · simp only [List.mem_singleton] at h
        subst h
        rfl
    · exact monthcalendar_row_length y m w hw
  · intro h5
    rw [build_calendar_matrix_length]
    split <;> omega
  · intro h4
    rw [build_calendar_matrix_length]
    split <;> omega
  · rw [month_matrix_map, List.length_map]

/-- C1 witness: the amended shape theorem applied to July 2024, whose natural
grid has 5 rows, so the built matrix has 6. -/
theorem calendar_matrix_shape_witness :
    (Controller.build_calendar_matrix 2024 7).length = 6 :=
  (calendar_matrix_shape 2024 7 (by decide) (by decide)).2.1 (by decide)

/-! ### Claim C2 -/

/-- C2: the delete statement is malformed (`WHERE = ?` is missing its column
name), so every fault-free `Entries.delete` call raises an `OperationalError`
(re-raised by `cursor_manager`, which only swallows integrity errors) and
leaves the store exactly as it was — it neither silently no-ops on a missing
date nor removes an existing record. -/
theorem delete_always_raises (s : Store) (day : Day) :
    Entries.delete none s day = (OpResult.raised SqlError.operationalError, s) := rfl

/-! ### Claim C3 -/

/-- C3, counterexample to the claimed chronological ordering: the SELECT has no
ORDER BY, so rows come back in table (rowid/insertion) order; storing
2024-02-01 before 2024-01-31 and then querying the range covering both returns
the 2024-02-01 record first, and "2024-02-01" does not precede "2024-01-31". -/
theorem get_range_not_chronological :
    Entries.get_by_dates
        ((Entries.save none ((Entries.save none [] ⟨⟨2024, 2, 1⟩, "b"⟩).2)
          ⟨⟨2024, 1, 31⟩, "a"⟩).2) ⟨2024, 1, 31⟩ ⟨2024, 2, 1⟩ =
      [("2024-02-01", "b"), ("2024-01-31", "a")] ∧
    ¬ sqlLe "2024-02-01" "2024-01-31" := by decide

/-- C3, amended: `get_by_dates` returns exactly the stored records whose dates
fall inclusively between the bounds — for bounded dates, a record
`(d.isoformat, t)` is returned iff the row is stored and `a ≤ d ≤ b`
chronologically — but in table (insertion) order: no ordering of the returned
sequence is requested by the query. -/
theorem get_range_membership (s : Store) (a b d : Date) (t : String)
    (ha : a.Bounded) (hb : b.Bounded) (hd : d.Bounded) :
    (d.isoformat, t) ∈ Entries.get_by_dates s a b ↔
      (⟨d.isoformat, t⟩ : Row) ∈ s ∧ Date.le a d ∧ Date.le d b := by
  rw [get_by_dates_eq]
  unfold execSelectBetween
  rw [List.mem_map]
  constructor
  · rintro ⟨r, hr, hrow⟩
    obtain ⟨hmem, hpred⟩ := List.mem_filter.mp hr
    obtain ⟨hrd, hre⟩ := Prod.mk.injEq .. ▸ hrow
    have hr' : r = ⟨d.isoformat, t⟩ := by
      cases r
      simp only at hrd hre
      rw [hrd, hre]
    subst hr'
    simp only [decide_eq_true_eq] at hpred
    exact ⟨hmem, (iso_le_iff ha hd).mp hpred.1, (iso_le_iff hd hb).mp hpred.2⟩
  · rintro ⟨hmem, hle1, hle2⟩
    refine ⟨⟨d.isoformat, t⟩, List.mem_filter.mpr ⟨hmem, ?_⟩, rfl⟩
    simp only [decide_eq_true_eq]
    exact ⟨(iso_le_iff ha hd).mpr hle1, (iso_le_iff hd hb).mpr hle2⟩

/-- C3 witness: the membership characterization applied to a store holding
2024-01-31 and the range 2024-01-01 .. 2024-12-31. -/
theorem get_range_membership_witness :
    (Date.isoformat ⟨2024, 1, 31⟩, "a") ∈
      Entries.get_by_dates [⟨"2024-01-31", "a"⟩] ⟨2024, 1, 1⟩ ⟨2024, 12, 31⟩ :=
  (get_range_membership [⟨"2024-01-31", "a"⟩] ⟨2024, 1, 1⟩ ⟨2024, 12, 31⟩ ⟨2024, 1, 31⟩ "a"
      (by decide) (by decide) (by decide)).mpr
    ⟨by decide, by decide, by decide⟩

/-! ### Claim C4 -/

/-- C4: on any well-formed store, saving `(d, t)` and then querying the range
`[d, d]` returns exactly one record, `(d.isoformat, t)` — the date in canonical
ISO form and the text returned byte-for-byte (texts are arbitrary strings here,
including Unicode and embedded newlines, and are stored untouched). -/
theorem save_get_range_roundtrip (s : Store) (hwf : WF s) (d : Date) (t : String) :
    Entries.get_by_dates ((Entries.save none s ⟨d, t⟩).2) d d = [(d.isoformat, t)] := by
  rw [save_mk_snd, get_by_dates_eq, between_self_eq_filter, filter_upsert hwf]
  rfl

/-- C4 witness: the round trip on a concrete store with text containing
Unicode and an embedded newline. -/
theorem save_get_range_roundtrip_witness :
    Entries.get_by_dates ((Entries.save none [⟨"2024-01-01", "x"⟩]
        ⟨⟨2024, 3, 4⟩, "héllo ☃\nsecond line"⟩).2) ⟨2024, 3, 4⟩ ⟨2024, 3, 4⟩ =
      [(Date.isoformat ⟨2024, 3, 4⟩, "héllo ☃\nsecond line")] :=
  save_get_range_roundtrip [⟨"2024-01-01", "x"⟩] (by decide) ⟨2024, 3, 4⟩ "héllo ☃\nsecond line"

/-! ### Claim C5 -/

/-- C5: on any well-formed store, saving `(d, t1)` then `(d, t2)` keeps the
uniqueness invariant (no duplicate rows for any date) and leaves exactly one
record for `d`, whose text is `t2` — the second write overwrites, it does not
insert a duplicate. -/
theorem save_save_overwrites (s : Store) (hwf : WF s) (d : Date) (t1 t2 : String) :
    WF (Entries.save none ((Entries.save none s ⟨d, t1⟩).2) ⟨d, t2⟩).2 ∧
    ((Entries.save none ((Entries.save none s ⟨d, t1⟩).2) ⟨d, t2⟩).2).filter
        (fun r => r.date == d.isoformat) = [⟨d.isoformat, t2⟩] := by
  rw [save_mk_snd, save_mk_snd]
  exact ⟨WF_upsert (WF_upsert hwf d.isoformat t1) d.isoformat t2,
    filter_upsert (WF_upsert hwf d.isoformat t1) d.isoformat t2⟩

/-- C5 witness: two writes for 2024-03-04 on the empty store leave one record
with the second text. -/
theorem save_save_overwrites_witness :
    WF (Entries.save none ((Entries.save none [] ⟨⟨2024, 3, 4⟩, "first"⟩).2)
        ⟨⟨2024, 3, 4⟩, "second"⟩).2 ∧
    ((Entries.save none ((Entries.save none [] ⟨⟨2024, 3, 4⟩, "first"⟩).2)
        ⟨⟨2024, 3, 4⟩, "second"⟩).2).filter
        (fun r => r.date == Date.isoformat ⟨2024, 3, 4⟩) =
      [⟨Date.isoformat ⟨2024, 3, 4⟩, "second"⟩] :=
  save_save_overwrites [] (by decide) ⟨2024, 3, 4⟩ "first" "second"

/-! ### Claim C6 -/

/-- C6, counterexample to the claim as stated: an `IntegrityError` during a
save is rolled back but NOT reported — `cursor_manager` has no `raise` in that
branch, so the caller sees a normal return (`OpResult.ok`), not a failure. -/
theorem integrity_error_swallowed :
    Entries.save (some SqlError.integrityError) [] ⟨⟨2024, 1, 1⟩, "t"⟩ =
      (OpResult.ok, []) := rfl

/-- C6, amended: every mutating operation (save, delete, initialize) runs
inside the commit-or-rollback handling: on any injected failure the state is
rolled back in full (no partial write is ever observable) and any
non-constraint failure is re-raised to the caller, but a constraint
(`IntegrityError`) failure is logged and swallowed — the caller sees a normal
return.  A fault-free save commits, a fault-free initialize succeeds, and a
fault-free delete still raises because its own statement is malformed. -/
theorem mutations_rollback_and_report (e : SqlError) (s : Store) (day : Day) (schema : Bool) :
    ((Entries.save (some e) s day).2 = s ∧
     (Entries.delete (some e) s day).2 = s ∧
     (init_entries_table (some e) schema).2 = schema) ∧
    (e ≠ SqlError.integrityError →
      (Entries.save (some e) s day).1 = OpResult.raised e ∧
      (Entries.delete (some e) s day).1 = OpResult.raised e ∧
      (init_entries_table (some e) schema).1 = OpResult.raised e) ∧
    (e = SqlError.integrityError →
      (Entries.save (some e) s day).1 = OpResult.ok ∧
      (Entries.delete (some e) s day).1 = OpResult.ok ∧
      (init_entries_table (some e) schema).1 = OpResult.ok) ∧
    (Entries.save none s day).1 = OpResult.ok ∧
    Entries.delete none s day = (OpResult.raised SqlError.operationalError, s) ∧
    init_entries_table none schema = (OpResult.ok, true) := by
  cases e <;>
    simp [Entries.save, Entries.delete, init_entries_table, cursor_manager, withFault,
      execDeleteMalformed, execUpsert_eq, Entries.format_date]

/-- C6 witness: the rollback-and-report theorem applied to a concrete
operational fault (reported) and a concrete integrity fault (swallowed). -/
theorem mutations_rollback_and_report_witness :
    (Entries.save (some SqlError.operationalError) [] ⟨⟨2024, 1, 1⟩, "t"⟩).1 =
        OpResult.raised SqlError.operationalError ∧
    (Entries.save (some SqlError.integrityError) [⟨"2024-01-01", "x"⟩]
        ⟨⟨2024, 1, 1⟩, "t"⟩).2 = [⟨"2024-01-01", "x"⟩] :=
  ⟨((mutations_rollback_and_report SqlError.operationalError [] ⟨⟨2024, 1, 1⟩, "t"⟩
      false).2.1 (by decide)).1,
   (mutations_rollback_and_report SqlError.integrityError [⟨"2024-01-01", "x"⟩]
      ⟨⟨2024, 1, 1⟩, "t"⟩ false).1.1⟩

/-! ### Claim C7 -/

/-- C7, counterexample to the claim as stated: for March 4, 2024 the `Day`
display string is "March 04, 2024" — `strftime` `%d` zero-pads the day — which
is not the claimed "March 4, 2024", and differs from the controller's
focus-date string, which does not pad. -/
theorem day_display_string_padded :
    Day.get_date_string ⟨2024, 3, 4⟩ = "March 04, 2024" ∧
    Controller.get_focus_date_str ⟨2024, 3, 4⟩ = "March 4, 2024" ∧
    Day.get_date_string ⟨2024, 3, 4⟩ ≠ "March 4, 2024" ∧
    Day.get_date_string ⟨2024, 3, 4⟩ ≠ Controller.get_focus_date_str ⟨2024, 3, 4⟩ := by decide

/-- C7, amended: the `Day` display string zero-pads the day of month to two
digits while the controller's focus-date string does not, so for any day of
month up to 31 the two strings agree exactly when the day has two digits. -/
theorem day_display_vs_controller (d : Date) (hd : d.day ≤ 31) :
    (Day.get_date_string d = Controller.get_focus_date_str d) ↔ 10 ≤ d.day := by
  unfold Day.get_date_string Controller.get_focus_date_str
  have hdata : ∀ x y : String, (x = y) ↔ x.data = y.data :=
    fun x y => ⟨fun h => h ▸ rfl, fun h => String.toList_inj.mp h⟩
  rw [hdata]
  simp only [String.data_append, List.append_assoc]
  rw [List.append_cancel_left_eq, List.append_cancel_left_eq, List.append_cancel_right_eq]
  exact pad2_eq_repr_iff d.day (by omega)

/-- C7 witness: the padded/unpadded comparison at March 15, 2024, a two-digit
day on which both display strings agree. -/
theorem day_display_vs_controller_witness :
    Day.get_date_string ⟨2024, 3, 15⟩ = Controller.get_focus_date_str ⟨2024, 3, 15⟩ :=
  (day_display_vs_controller ⟨2024, 3, 15⟩ (by decide)).mpr (by decide)

/-! ### Claim C8 -/

/-- C8: the save statement resolves its declared conflict target itself
(`ON CONFLICT(date) DO UPDATE`), so executing it never produces an error of any
kind — in particular never an `IntegrityError` — and therefore the
constraint-violation branch of `cursor_manager` is unreachable from
`Entries.save`: a fault-free save always commits the upserted store. -/
theorem save_never_integrity_error (s : Store) (day : Day) :
    execUpsert s day.date.isoformat day.entry =
        Except.ok (upsert s day.date.isoformat day.entry) ∧
    (∀ err : SqlError, execUpsert s day.date.isoformat day.entry ≠ Except.error err) ∧
    Entries.save none s day = (OpResult.ok, upsert s day.date.isoformat day.entry) :=
  ⟨execUpsert_eq s day.date.isoformat day.entry,
   fun err hc => by rw [execUpsert_eq] at hc; exact Except.noConfusion hc,
   save_none_eq s day⟩

/-- C8 witness: a concrete save on a store already holding the same date
commits the overwrite and reports success. -/
theorem save_never_integrity_error_witness :
    Entries.save none [⟨"2024-01-01", "old"⟩] ⟨⟨2024, 1, 1⟩, "new"⟩ =
      (OpResult.ok, [⟨"2024-01-01", "new"⟩]) := by
  rw [(save_never_integrity_error [⟨"2024-01-01", "old"⟩] ⟨⟨2024, 1, 1⟩, "new"⟩).2.2]
  decide

/-! ### Claim C9 -/

/-- C9: a range query with reversed bounds (`b` chronologically before `a`)
returns the empty sequence, and more generally whenever no stored row's date
falls inclusively between the formatted bounds the result is empty; the query
itself cannot fail (its result type carries no error), so no error is raised. -/
theorem get_range_reversed_empty (s : Store) (a b : Date)
    (ha : a.Bounded) (hb : b.Bounded) :
    (Date.lt b a → Entries.get_by_dates s a b = []) ∧
    ((∀ r ∈ s, ¬ (sqlLe a.isoformat r.date ∧ sqlLe r.date b.isoformat)) →
      Entries.get_by_dates s a b = []) := by
  constructor
  · intro hrev
    rw [get_by_dates_eq]
    unfold execSelectBetween
    have hnil : s.filter
        (fun r => decide (sqlLe a.isoformat r.date ∧ sqlLe r.date b.isoformat)) = [] := by
      rw [List.filter_eq_nil_iff]
      intro r _
      simp only [decide_eq_true_eq]
      rintro ⟨h1, h2⟩
      exact sqlLt_asymm_le ((iso_lt_iff hb ha).mpr hrev) (sqlLe_trans h1 h2)
    rw [hnil, List.map_nil]
  · intro hnone
    rw [get_by_dates_eq]
    unfold execSelectBetween
    have hnil : s.filter
        (fun r => decide (sqlLe a.isoformat r.date ∧ sqlLe r.date b.isoformat)) = [] := by
      rw [List.filter_eq_nil_iff]
      intro r hr
      simp only [decide_eq_true_eq]
      exact hnone r hr
    rw [hnil, List.map_nil]

/-- C9 witness: the reversed range 2024-02-01 .. 2024-01-31 on a non-empty
store returns the empty sequence. -/
theorem get_range_reversed_empty_witness :
    Entries.get_by_dates [⟨"2024-01-15", "x"⟩] ⟨2024, 2, 1⟩ ⟨2024, 1, 31⟩ = [] :=
  (get_range_reversed_empty [⟨"2024-01-15", "x"⟩] ⟨2024, 2, 1⟩ ⟨2024, 1, 31⟩
      (by decide) (by decide)).1 (by decide)

/-! ### Claim C10 -/

/-- C10: `set_focus_date_and_month`'s default argument is the single date
captured when the class body was evaluated (`startDefault`): a call without an
argument always sets the focus date to that fixed date — independent of the
state at call time, as the two-state conjunct shows, and with no dependence on
any call-time clock, which is not even an input — while a call with an explicit
date `d` sets the focus date to exactly `d`; in both cases the calendar matrix
is rebuilt for the new focus date's month. -/
theorem set_focus_date_default_fixed (startDefault d : Date) (s s₂ : Controller.State) :
    (Controller.set_focus_date_and_month startDefault none s)._focus_date = startDefault ∧
    Controller.set_focus_date_and_month startDefault none s =
      Controller.set_focus_date_and_month startDefault none s₂ ∧
    (Controller.set_focus_date_and_month startDefault (some d) s)._focus_date = d ∧
    (Controller.set_focus_date_and_month startDefault none s).calendar_matrix =
      Controller.build_calendar_matrix startDefault.year startDefault.month ∧
    (Controller.set_focus_date_and_month startDefault (some d) s).calendar_matrix =
      Controller.build_calendar_matrix d.year d.month :=
  ⟨rfl, rfl, rfl, rfl, rfl⟩

end DailyJournal
